import Mathlib

/-!
# Verification of the task-tracker canister

Shallow embedding of the Azle canister in `src/index.ts`: two stable
key-value stores (users keyed by principal, tasks keyed by a generated id)
and the eight public operations (`createUser`, `getMe`, `updateMe`,
`createTask`, `getMyTasks`, `updateMyTask`, `toggleMyTask`, `deleteMyTask`).

Principals are modelled as strings (the code compares principals via
`toText()` equality), `nat64` timestamps as `Nat`, and the ambient values
`ic.caller()` / `ic.time()` / `uuidv4()` are passed as explicit arguments.
A `StableBTreeMap` is modelled as an association list with insert-or-replace,
point lookup, remove, and a `values` listing.
-/

namespace TaskCanister

/-- Caller principal, compared by its text form. -/
abbrev Principal := String

/-- The `User` record of the canister. -/
structure User where
  id : Principal
  name : String
  email : String
  createdAt : Nat
  updatedAt : Nat
deriving Repr, DecidableEq

/-- The `Task` record of the canister. -/
structure Task where
  id : String
  title : String
  description : String
  isCompleted : Bool
  owner : Principal
  createdAt : Nat
  updatedAt : Nat
deriving Repr, DecidableEq

/-- `UserPayload` record: `{name, email}`. -/
structure UserPayload where
  name : String
  email : String
deriving Repr, DecidableEq

/-- `TaskPayload` record: `{title, description}`. -/
structure TaskPayload where
  title : String
  description : String
deriving Repr, DecidableEq

/-- The `Error` variant of the canister. -/
inductive CError where
  | NotFound : String → CError
  | Unauthorized : String → CError
  | Forbidden : String → CError
  | BadRequest : String → CError
  | InternalError : String → CError
deriving Repr, DecidableEq

instance {ε α : Type} [DecidableEq ε] [DecidableEq α] : DecidableEq (Except ε α) :=
  fun x y =>
    match x, y with
    | .ok a, .ok b =>
        if h : a = b then isTrue (h ▸ rfl) else isFalse (fun hc => h (Except.ok.inj hc))
    | .error e, .error f =>
        if h : e = f then isTrue (h ▸ rfl) else isFalse (fun hc => h (Except.error.inj hc))
    | .ok _, .error _ => isFalse (fun hc => Except.noConfusion hc)
    | .error _, .ok _ => isFalse (fun hc => Except.noConfusion hc)

/-! ## Association-list model of `StableBTreeMap` -/

/-- Point lookup (`StableBTreeMap.get`): the value stored at key `k`. -/
def mapGet {α β : Type} [DecidableEq α] : List (α × β) → α → Option β
  | [], _ => none
  | (k', v') :: rest, k => if k' = k then some v' else mapGet rest k

/-- `StableBTreeMap.containsKey`. -/
def mapContains {α β : Type} [DecidableEq α] (m : List (α × β)) (k : α) : Bool :=
  (mapGet m k).isSome

/-- Insert-or-replace (`StableBTreeMap.insert`): replaces the entry at key
`k` in place if present, otherwise appends a new entry. -/
def mapInsert {α β : Type} [DecidableEq α] : List (α × β) → α → β → List (α × β)
  | [], k, v => [(k, v)]
  | (k', v') :: rest, k, v =>
      if k' = k then (k, v) :: rest else (k', v') :: mapInsert rest k v

/-- `StableBTreeMap.remove`: drops the entry stored at key `k`. -/
def mapRemove {α β : Type} [DecidableEq α] : List (α × β) → α → List (α × β)
  | [], _ => []
  | (k', v') :: rest, k => if k' = k then rest else (k', v') :: mapRemove rest k

/-- `StableBTreeMap.values`. -/
def mapValues {α β : Type} (m : List (α × β)) : List β :=
  m.map Prod.snd

/-! ## Email validation (`isEmailValid`)

The code tests the unanchored JavaScript regex `/\S+@\S+\.\S+/` against the
email string.  The scanner below is a direct operational translation: it
walks the string looking for an `'@'` preceded by a non-whitespace
character and followed by a non-empty run of non-whitespace characters,
a `'.'`, and one more non-whitespace character. -/

/-- JavaScript `\s` on the ASCII range (space, tab, LF, VT, FF, CR);
`\S` is its negation. -/
def isJsWhitespace (c : Char) : Bool :=
  c = ' ' || c = '\t' || c = '\n' || c = '\x0b' || c = '\x0c' || c = '\r'

/-- Does the list start with a literal `'.'` followed by a non-whitespace
character? -/
def dotThenNS : List Char → Bool
  | c :: d :: _ => c = '.' && !isJsWhitespace d
  | _ => false

/-- Does the list start with `\S+\.\S` (a non-empty run of non-whitespace
characters, then a literal `'.'`, then a non-whitespace character)? -/
def midThenDot : List Char → Bool
  | [] => false
  | c :: rest => !isJsWhitespace c && (dotThenNS rest || midThenDot rest)

/-- Scan for an occurrence of `\S@\S+\.\S` anywhere in the list; `prevNS`
records whether the previous character was non-whitespace (`false` at the
start of the string). -/
def scanEmail : Bool → List Char → Bool
  | _, [] => false
  | prevNS, c :: rest =>
      (c = '@' && prevNS && midThenDot rest) || scanEmail (!isJsWhitespace c) rest

/-- `isEmailValid`: `/\S+@\S+\.\S+/.test(email)`. -/
def isEmailValid (email : String) : Bool :=
  scanEmail false email.data

/-! ## Canister state and operations -/

/-- The two stable stores of the canister. -/
structure CanisterState where
  userStorage : List (Principal × User)
  taskStorage : List (String × Task)
deriving Repr, DecidableEq

/-- `isUserExists`. -/
def isUserExists (st : CanisterState) (id : Principal) : Bool :=
  mapContains st.userStorage id

/-- `isTaskExists`. -/
def isTaskExists (st : CanisterState) (id : String) : Bool :=
  mapContains st.taskStorage id

/-- `createUser(payload)`: validates the payload (JS falsiness of a string
is emptiness), rejects a duplicate registration, then inserts
`{id: caller, createdAt: now, updatedAt: now, ...payload}`. -/
def createUser (st : CanisterState) (caller : Principal) (now : Nat)
    (payload : UserPayload) : Except CError User × CanisterState :=
  if payload.name = "" || payload.email = "" then
    (Except.error (CError.BadRequest "Invalid input: Name and email are required"), st)
  else if !isEmailValid payload.email then
    (Except.error (CError.BadRequest "Invalid input: Email is not valid"), st)
  else if isUserExists st caller then
    (Except.error (CError.BadRequest "Invalid input: User already exists"), st)
  else
    let newUser : User :=
      { id := caller
        name := payload.name
        email := payload.email
        createdAt := now
        updatedAt := now }
    (Except.ok newUser,
      { st with userStorage := mapInsert st.userStorage newUser.id newUser })

/-- `getMe()`: requires a registered caller and returns the stored record.
The `none` branch is unreachable after the `isUserExists` guard and is
mapped to the catch-all `InternalError`. -/
def getMe (st : CanisterState) (caller : Principal) :
    Except CError User × CanisterState :=
  if !isUserExists st caller then
    (Except.error (CError.Unauthorized "Invalid operation: User does not exist"), st)
  else
    match mapGet st.userStorage caller with
    | some user => (Except.ok user, st)
    | none => (Except.error (CError.InternalError "Internal server error"), st)

/-- `updateMe(payload)`: requires a registered caller, validates the
payload, then upserts `{...user, ...payload, updatedAt: now}` at the
stored record's own id. -/
def updateMe (st : CanisterState) (caller : Principal) (now : Nat)
    (payload : UserPayload) : Except CError User × CanisterState :=
  if !isUserExists st caller then
    (Except.error (CError.Unauthorized "Invalid operation: User does not exist"), st)
  else if payload.name = "" || payload.email = "" then
    (Except.error (CError.BadRequest "Invalid input: Name and email are required"), st)
  else if !isEmailValid payload.email then
    (Except.error (CError.BadRequest "Invalid input: Email is not valid"), st)
  else
    match mapGet st.userStorage caller with
    | some user =>
        let updatedUser : User :=
          { user with
            name := payload.name
            email := payload.email
            updatedAt := now }
        (Except.ok updatedUser,
          { st with userStorage := mapInsert st.userStorage updatedUser.id updatedUser })
    | none => (Except.error (CError.InternalError "Internal server error"), st)

/-- `createTask(payload)`: requires a registered caller and a truthy
title, then inserts `{id: uuidv4(), isCompleted: false, owner: caller,
createdAt: now, updatedAt: now, ...payload}` keyed by the generated id,
unconditionally. The generated uuid is passed in as `newId`. -/
def createTask (st : CanisterState) (caller : Principal) (now : Nat)
    (newId : String) (payload : TaskPayload) : Except CError Task × CanisterState :=
  if !isUserExists st caller then
    (Except.error (CError.Unauthorized "Invalid operation: User does not exist"), st)
  else if payload.title = "" then
    (Except.error (CError.BadRequest "Invalid input: Title is required"), st)
  else
    let task : Task :=
      { id := newId
        title := payload.title
        description := payload.description
        isCompleted := false
        owner := caller
        createdAt := now
        updatedAt := now }
    (Except.ok task,
      { st with taskStorage := mapInsert st.taskStorage task.id task })

/-- `getMyTasks()`: requires a registered caller and returns all stored
tasks whose `owner` has the caller's text form. -/
def getMyTasks (st : CanisterState) (caller : Principal) :
    Except CError (List Task) × CanisterState :=
  if !isUserExists st caller then
    (Except.error (CError.Unauthorized "Invalid operation: User does not exist"), st)
  else
    (Except.ok ((mapValues st.taskStorage).filter (fun task => task.owner = caller)), st)

/-- `updateMyTask(id, payload)`: registration check, then title check,
then existence check, then ownership check, then upserts
`{...task, ...payload, updatedAt: now}` keyed by the updated task's id. -/
def updateMyTask (st : CanisterState) (caller : Principal) (now : Nat)
    (id : String) (payload : TaskPayload) : Except CError Task × CanisterState :=
  if !isUserExists st caller then
    (Except.error (CError.Unauthorized "Invalid operation: User does not exist"), st)
  else if payload.title = "" then
    (Except.error (CError.BadRequest "Invalid input: Title is required"), st)
  else if !isTaskExists st id then
    (Except.error (CError.NotFound ("Task not found with id " ++ id)), st)
  else
    match mapGet st.taskStorage id with
    | some task =>
        if task.owner ≠ caller then
          (Except.error (CError.Forbidden "Invalid operation: You are not the task owner"), st)
        else
          let updatedTask : Task :=
            { task with
              title := payload.title
              description := payload.description
              updatedAt := now }
          (Except.ok updatedTask,
            { st with taskStorage := mapInsert st.taskStorage updatedTask.id updatedTask })
    | none => (Except.error (CError.InternalError "Internal server error"), st)

/-- `toggleMyTask(id)`: registration check, existence check, ownership
check, then upserts `{...task, isCompleted: !task.isCompleted,
updatedAt: now}`. -/
def toggleMyTask (st : CanisterState) (caller : Principal) (now : Nat)
    (id : String) : Except CError Task × CanisterState :=
  if !isUserExists st caller then
    (Except.error (CError.Unauthorized "Invalid operation: User does not exist"), st)
  else if !isTaskExists st id then
    (Except.error (CError.NotFound ("Task not found with id " ++ id)), st)
  else
    match mapGet st.taskStorage id with
    | some task =>
        if task.owner ≠ caller then
          (Except.error (CError.Forbidden "Invalid operation: You are not the task owner"), st)
        else
          let toggledTask : Task :=
            { task with
              isCompleted := !task.isCompleted
              updatedAt := now }
          (Except.ok toggledTask,
            { st with taskStorage := mapInsert st.taskStorage toggledTask.id toggledTask })
    | none => (Except.error (CError.InternalError "Internal server error"), st)

/-- `deleteMyTask(id)`: registration check, existence check, ownership
check, then removes the task (at the stored task's own id) and returns a
confirmation message. -/
def deleteMyTask (st : CanisterState) (caller : Principal) (id : String) :
    Except CError String × CanisterState :=
  if !isUserExists st caller then
    (Except.error (CError.Unauthorized "Invalid operation: User does not exist"), st)
  else if !isTaskExists st id then
    (Except.error (CError.NotFound ("Task not found with id " ++ id)), st)
  else
    match mapGet st.taskStorage id with
    | some task =>
        if task.owner ≠ caller then
          (Except.error (CError.Forbidden "Invalid operation: You are not the task owner"), st)
        else
          (Except.ok "Task deleted successfully",
            { st with taskStorage := mapRemove st.taskStorage task.id })
    | none => (Except.error (CError.InternalError "Internal server error"), st)

/-! ## Derived predicates used by the claims -/

/-- The result component of an operation is an `Unauthorized` error. -/
def isUnauthorized {α : Type} (r : Except CError α) : Prop :=
  ∃ msg, r = Except.error (CError.Unauthorized msg)

/-- The result component of an operation is a `Forbidden` error. -/
def isForbidden {α : Type} (r : Except CError α) : Prop :=
  ∃ msg, r = Except.error (CError.Forbidden msg)

/-- The result component of an operation is a `BadRequest` error. -/
def isBadRequest {α : Type} (r : Except CError α) : Prop :=
  ∃ msg, r = Except.error (CError.BadRequest msg)

/-- The result component of an operation is a `NotFound` error. -/
def isNotFound {α : Type} (r : Except CError α) : Prop :=
  ∃ msg, r = Except.error (CError.NotFound msg)

/-- Reachable-state invariant: store keys are duplicate-free and every
stored record carries its own key in its `id` field. Holds for the empty
state and is preserved by every operation. -/
def WellFormed (st : CanisterState) : Prop :=
  (st.userStorage.map Prod.fst).Nodup ∧
  (st.taskStorage.map Prod.fst).Nodup ∧
  (∀ p ∈ st.userStorage, p.2.id = p.1) ∧
  (∀ p ∈ st.taskStorage, p.2.id = p.1)

/-! ## Lemmas about the association-list map model -/

theorem mapGet_eq_none_iff {α β : Type} [DecidableEq α] (m : List (α × β)) (k : α) :
    mapGet m k = none ↔ ∀ p ∈ m, p.1 ≠ k := by
  induction m with
  | nil => simp [mapGet]
  | cons hd tl ih =>
      obtain ⟨k', v'⟩ := hd
      by_cases h : k' = k
      · subst h
        simp [mapGet]
      · simp [mapGet, h, ih]

theorem mapGet_some_mem {α β : Type} [DecidableEq α] {m : List (α × β)} {k : α} {v : β}
    (h : mapGet m k = some v) : (k, v) ∈ m := by
  induction m with
  | nil => simp [mapGet] at h
  | cons hd tl ih =>
      obtain ⟨k', v'⟩ := hd
      by_cases hk : k' = k
      · subst hk
        simp [mapGet] at h
        simp [h]
      · simp [mapGet, hk] at h
        exact List.mem_cons_of_mem _ (ih h)

theorem mapInsert_of_get_none {α β : Type} [DecidableEq α] {m : List (α × β)} {k : α}
    (v : β) (h : mapGet m k = none) : mapInsert m k v = m ++ [(k, v)] := by
  induction m with
  | nil => simp [mapInsert]
  | cons hd tl ih =>
      obtain ⟨k', v'⟩ := hd
      by_cases hk : k' = k
      · subst hk
        simp [mapGet] at h
      · simp [mapGet, hk] at h
        simp [mapInsert, hk, ih h]

theorem mapGet_mapInsert_self {α β : Type} [DecidableEq α] (m : List (α × β)) (k : α) (v : β) :
    mapGet (mapInsert m k v) k = some v := by
  induction m with
  | nil => simp [mapInsert, mapGet]
  | cons hd tl ih =>
      obtain ⟨k', v'⟩ := hd
      by_cases hk : k' = k
      · subst hk
        simp [mapInsert, mapGet]
      · simp [mapInsert, mapGet, hk, ih]

theorem mapGet_mapInsert_ne {α β : Type} [DecidableEq α] (m : List (α × β)) (k : α) (v : β)
    {k' : α} (h : k' ≠ k) : mapGet (mapInsert m k v) k' = mapGet m k' := by
  induction m with
  | nil => simp [mapInsert, mapGet, Ne.symm h]
  | cons hd tl ih =>
      obtain ⟨k₀, v₀⟩ := hd
      by_cases hk : k₀ = k
      · subst hk
        simp [mapInsert, mapGet, Ne.symm h]
      · simp [mapInsert, mapGet, hk, ih]

theorem mem_of_mem_mapRemove {α β : Type} [DecidableEq α] {m : List (α × β)} {k : α}
    {p : α × β} (h : p ∈ mapRemove m k) : p ∈ m := by
  induction m with
  | nil => simp [mapRemove] at h
  | cons hd tl ih =>
      obtain ⟨k', v'⟩ := hd
      by_cases hk : k' = k
      · subst hk
        simp [mapRemove] at h
        simp [h]
      · simp [mapRemove, hk] at h
        rcases h with h | h
        · simp [h]
        · exact List.mem_cons_of_mem _ (ih h)

theorem mapRemove_key_ne {α β : Type} [DecidableEq α] {m : List (α × β)} {k : α}
    {p : α × β} (hnd : (m.map Prod.fst).Nodup) (h : p ∈ mapRemove m k) : p.1 ≠ k := by
  induction m with
  | nil => simp [mapRemove] at h
  | cons hd tl ih =>
      obtain ⟨k', v'⟩ := hd
      simp only [List.map_cons, List.nodup_cons] at hnd
      by_cases hk : k' = k
      · subst hk
        simp [mapRemove] at h
        intro hpk
        exact hnd.1 (hpk ▸ List.mem_map_of_mem Prod.fst h)
      · simp [mapRemove, hk] at h
        rcases h with h | h
        · intro hpk
          exact hk (by simpa [h] using hpk)
        · exact ih hnd.2 h

theorem mapGet_mapRemove_self {α β : Type} [DecidableEq α] {m : List (α × β)} {k : α}
    (hnd : (m.map Prod.fst).Nodup) : mapGet (mapRemove m k) k = none := by
  rw [mapGet_eq_none_iff]
  intro p hp
  exact mapRemove_key_ne hnd hp

/-! ## Characterization of the email scanner -/

/-- Spec-side reading of the email check: some substring of the email
matches "non-whitespace, `'@'`, non-whitespace, `'.'`, non-whitespace",
i.e. the character list splits as `pre ++ s1 ++ '@' :: s2 ++ '.' :: s3 ++
post` with `s1`, `s2`, `s3` non-empty runs of non-whitespace characters. -/
def EmailFragmentSpec (email : String) : Prop :=
  ∃ pre s1 s2 s3 post : List Char,
    email.data = pre ++ s1 ++ '@' :: (s2 ++ '.' :: (s3 ++ post)) ∧
    s1 ≠ [] ∧ s2 ≠ [] ∧ s3 ≠ [] ∧
    (∀ c ∈ s1, isJsWhitespace c = false) ∧
    (∀ c ∈ s2, isJsWhitespace c = false) ∧
    (∀ c ∈ s3, isJsWhitespace c = false)

/-- A match of `@\S+\.\S` starting at the head of the list (the character
before the `'@'` being accounted for separately). -/
def MatchAt (l : List Char) : Prop :=
  ∃ s2 z post, l = '@' :: (s2 ++ '.' :: z :: post) ∧ s2 ≠ [] ∧
    (∀ c ∈ s2, isJsWhitespace c = false) ∧ isJsWhitespace z = false

/-- A match of `\S@\S+\.\S` somewhere inside the list. -/
def MatchIn (l : List Char) : Prop :=
  ∃ pre p rest, l = pre ++ p :: rest ∧ isJsWhitespace p = false ∧ MatchAt rest

theorem dotThenNS_iff (l : List Char) :
    dotThenNS l = true ↔ ∃ z post, l = '.' :: z :: post ∧ isJsWhitespace z = false := by
  match l with
  | [] => simp [dotThenNS]
  | [c] => simp [dotThenNS]
  | c :: d :: rest =>
      simp only [dotThenNS, Bool.and_eq_true, decide_eq_true_eq, Bool.not_eq_true',
        List.cons.injEq]
      constructor
      · rintro ⟨rfl, hd⟩
        exact ⟨d, rest, ⟨rfl, rfl, rfl⟩, hd⟩
      · rintro ⟨z, post, ⟨rfl, rfl, rfl⟩, hz⟩
        exact ⟨rfl, hz⟩

theorem midThenDot_iff (l : List Char) :
    midThenDot l = true ↔ ∃ s2 z post, l = s2 ++ '.' :: z :: post ∧ s2 ≠ [] ∧
      (∀ c ∈ s2, isJsWhitespace c = false) ∧ isJsWhitespace z = false := by
  induction l with
  | nil =>
      simp only [midThenDot, Bool.false_eq_true, false_iff]
      rintro ⟨s2, z, post, h, -⟩
      exact absurd h.symm (by simp)
  | cons c rest ih =>
      constructor
      · intro h
        simp only [midThenDot, Bool.and_eq_true, Bool.or_eq_true, Bool.not_eq_true'] at h
        obtain ⟨hc, hrest⟩ := h
        rcases hrest with hd | hm
        · obtain ⟨z, post, heq, hz⟩ := (dotThenNS_iff rest).1 hd
          refine ⟨[c], z, post, by simp [heq], by simp, ?_, hz⟩
          intro x hx
          simp at hx
          simpa [hx] using hc
        · obtain ⟨s2, z, post, heq, hne, hall, hz⟩ := ih.1 hm
          refine ⟨c :: s2, z, post, by simp [heq], by simp, ?_, hz⟩
          intro x hx
          rcases List.mem_cons.1 hx with rfl | hx
          · exact hc
          · exact hall x hx
      · rintro ⟨s2, z, post, heq, hne, hall, hz⟩
        cases s2 with
        | nil => exact absurd rfl hne
        | cons a s2' =>
            simp only [List.cons_append, List.cons.injEq] at heq
            obtain ⟨rfl, hrest⟩ := heq
            simp only [midThenDot, Bool.and_eq_true, Bool.or_eq_true, Bool.not_eq_true']
            refine ⟨hall c (by simp), ?_⟩
            cases s2' with
            | nil =>
                left
                rw [hrest]
                exact (dotThenNS_iff _).2 ⟨z, post, by simp, hz⟩
            | cons b s2'' =>
                right
                refine ih.2 ⟨b :: s2'', z, post, hrest, by simp, ?_, hz⟩
                intro x hx
                exact hall x (List.mem_cons_of_mem _ hx)

theorem matchAt_cons (c : Char) (rest : List Char) :
    MatchAt (c :: rest) ↔ c = '@' ∧ midThenDot rest = true := by
  rw [midThenDot_iff]
  constructor
  · rintro ⟨s2, z, post, heq, hne, hall, hz⟩
    simp only [List.cons.injEq] at heq
    obtain ⟨rfl, hrest⟩ := heq
    exact ⟨rfl, s2, z, post, hrest, hne, hall, hz⟩
  · rintro ⟨rfl, s2, z, post, heq, hne, hall, hz⟩
    exact ⟨s2, z, post, by rw [heq], hne, hall, hz⟩

theorem matchIn_cons (c : Char) (rest : List Char) :
    MatchIn (c :: rest) ↔ MatchIn rest ∨ (isJsWhitespace c = false ∧ MatchAt rest) := by
  constructor
  · rintro ⟨pre, p, tail, heq, hp, hat⟩
    cases pre with
    | nil =>
        simp only [List.nil_append, List.cons.injEq] at heq
        obtain ⟨rfl, rfl⟩ := heq
        exact Or.inr ⟨hp, hat⟩
    | cons q pre' =>
        simp only [List.cons_append, List.cons.injEq] at heq
        obtain ⟨rfl, hrest⟩ := heq
        exact Or.inl ⟨pre', p, tail, hrest, hp, hat⟩
  · rintro (⟨pre, p, tail, heq, hp, hat⟩ | ⟨hc, hat⟩)
    · exact ⟨c :: pre, p, tail, by simp [heq], hp, hat⟩
    · exact ⟨[], c, rest, by simp, hc, hat⟩

theorem scanEmail_iff (l : List Char) (b : Bool) :
    scanEmail b l = true ↔ MatchIn l ∨ (b = true ∧ MatchAt l) := by
  induction l generalizing b with
  | nil =>
      simp only [scanEmail, Bool.false_eq_true, false_iff]
      rintro (⟨pre, p, rest, h, -⟩ | ⟨-, s2, z, post, h, -⟩) <;>
        exact absurd h.symm (by simp)
  | cons c rest ih =>
      simp only [scanEmail, Bool.or_eq_true, Bool.and_eq_true, decide_eq_true_eq,
        Bool.not_eq_true', ih, matchIn_cons, matchAt_cons]
      tauto

/-- The code's email check agrees with the unanchored-substring reading:
`/\S+@\S+\.\S+/.test(email)` holds exactly when some substring of the
email has the shape `\S+@\S+\.\S+`. -/
theorem isEmailValid_iff (email : String) :
    isEmailValid email = true ↔ EmailFragmentSpec email := by
  rw [isEmailValid, scanEmail_iff]
  simp only [Bool.false_eq_true, false_and, or_false]
  constructor
  · rintro ⟨pre, p, rest, heq, hp, s2, z, post, hrest, hne2, hall2, hz⟩
    refine ⟨pre, [p], s2, [z], post, ?_, by simp, hne2, by simp, ?_, hall2, ?_⟩
    · rw [heq, hrest]
      simp
    · intro x hx
      simp at hx
      simpa [hx] using hp
    · intro x hx
      simp at hx
      simpa [hx] using hz
  · rintro ⟨pre, s1, s2, s3, post, heq, hne1, hne2, hne3, hall1, hall2, hall3⟩
    obtain ⟨s1', p, rfl⟩ := (List.eq_nil_or_concat' s1).resolve_left hne1
    obtain ⟨z, s3', rfl⟩ := List.exists_cons_of_ne_nil hne3
    refine ⟨pre ++ s1', p, '@' :: (s2 ++ '.' :: z :: (s3' ++ post)), ?_,
      hall1 p (by simp), s2, z, s3' ++ post, rfl, hne2, hall2,
      hall3 z (by simp)⟩
    rw [heq]
    simp

/-! ## Concrete fixtures -/

/-- The initial canister state: both stores empty. -/
def emptyState : CanisterState := { userStorage := [], taskStorage := [] }

/-- A registered user "alice". -/
def userAlice : User :=
  { id := "alice", name := "Alice", email := "alice@x.com", createdAt := 1, updatedAt := 1 }

/-- A registered user "bob". -/
def userBob : User :=
  { id := "bob", name := "Bob", email := "bob@x.com", createdAt := 1, updatedAt := 1 }

/-- A task owned by "alice". -/
def taskMilk : Task :=
  { id := "t1", title := "Buy milk", description := "2%", isCompleted := false,
    owner := "alice", createdAt := 2, updatedAt := 2 }

/-- A state with users "alice" and "bob" and one task owned by "alice". -/
def stAB : CanisterState :=
  { userStorage := [("alice", userAlice), ("bob", userBob)],
    taskStorage := [("t1", taskMilk)] }

/-! ## Claims -/

/-- C1: a registered caller that is not the task's owner gets `Forbidden`
from `updateMyTask` (for a payload passing the earlier title check),
`toggleMyTask` and `deleteMyTask`, and the canister state — in particular
the task record — is unchanged; for delete the task is still present. -/
theorem non_owner_forbidden_unchanged
    (st : CanisterState) (caller : Principal) (now : Nat) (id : String)
    (payload : TaskPayload) (task : Task)
    (hreg : isUserExists st caller = true)
    (htask : mapGet st.taskStorage id = some task)
    (hown : task.owner ≠ caller)
    (htitle : payload.title ≠ "") :
    isForbidden (updateMyTask st caller now id payload).1 ∧
    (updateMyTask st caller now id payload).2 = st ∧
    isForbidden (toggleMyTask st caller now id).1 ∧
    (toggleMyTask st caller now id).2 = st ∧
    isForbidden (deleteMyTask st caller id).1 ∧
    (deleteMyTask st caller id).2 = st ∧
    mapGet (deleteMyTask st caller id).2.taskStorage id = some task := by
  have hex : isTaskExists st id = true := by
    simp [isTaskExists, mapContains, htask]
  refine ⟨?_, ?_, ?_, ?_, ?_, ?_, ?_⟩ <;>
    simp [updateMyTask, toggleMyTask, deleteMyTask, isForbidden,
      hreg, htitle, hex, htask, hown]

/-- Witness for C1: "bob" on "alice"'s task. -/
theorem non_owner_forbidden_unchanged_witness :
    isForbidden (updateMyTask stAB "bob" 5 "t1" ⟨"x", "y"⟩).1 ∧
    (updateMyTask stAB "bob" 5 "t1" ⟨"x", "y"⟩).2 = stAB ∧
    isForbidden (toggleMyTask stAB "bob" 5 "t1").1 ∧
    (toggleMyTask stAB "bob" 5 "t1").2 = stAB ∧
    isForbidden (deleteMyTask stAB "bob" "t1").1 ∧
    (deleteMyTask stAB "bob" "t1").2 = stAB ∧
    mapGet (deleteMyTask stAB "bob" "t1").2.taskStorage "t1" = some taskMilk :=
  non_owner_forbidden_unchanged stAB "bob" 5 "t1" ⟨"x", "y"⟩ taskMilk
    (by decide) (by decide) (by decide) (by decide)

/-- C2: a caller with no record in the user store gets `Unauthorized` from
every public operation except `createUser`, and both stores are left
unchanged. -/
theorem unregistered_unauthorized_unchanged
    (st : CanisterState) (caller : Principal) (now : Nat) (id newId : String)
    (up : UserPayload) (tp : TaskPayload)
    (h : isUserExists st caller = false) :
    isUnauthorized (getMe st caller).1 ∧ (getMe st caller).2 = st ∧
    isUnauthorized (updateMe st caller now up).1 ∧ (updateMe st caller now up).2 = st ∧
    isUnauthorized (createTask st caller now newId tp).1 ∧
    (createTask st caller now newId tp).2 = st ∧
    isUnauthorized (getMyTasks st caller).1 ∧ (getMyTasks st caller).2 = st ∧
    isUnauthorized (updateMyTask st caller now id tp).1 ∧
    (updateMyTask st caller now id tp).2 = st ∧
    isUnauthorized (toggleMyTask st caller now id).1 ∧
    (toggleMyTask st caller now id).2 = st ∧
    isUnauthorized (deleteMyTask st caller id).1 ∧
    (deleteMyTask st caller id).2 = st := by
  refine ⟨?_, ?_, ?_, ?_, ?_, ?_, ?_, ?_, ?_, ?_, ?_, ?_, ?_, ?_⟩ <;>
    simp [getMe, updateMe, createTask, getMyTasks, updateMyTask, toggleMyTask,
      deleteMyTask, isUnauthorized, h]

/-- Witness for C2: the unregistered caller "carol" against the populated
state. -/
theorem unregistered_unauthorized_unchanged_witness :
    isUnauthorized (getMe stAB "carol").1 ∧ (getMe stAB "carol").2 = stAB ∧
    isUnauthorized (updateMe stAB "carol" 5 ⟨"C", "c@x.com"⟩).1 ∧
    (updateMe stAB "carol" 5 ⟨"C", "c@x.com"⟩).2 = stAB ∧
    isUnauthorized (createTask stAB "carol" 5 "t9" ⟨"T", "D"⟩).1 ∧
    (createTask stAB "carol" 5 "t9" ⟨"T", "D"⟩).2 = stAB ∧
    isUnauthorized (getMyTasks stAB "carol").1 ∧ (getMyTasks stAB "carol").2 = stAB ∧
    isUnauthorized (updateMyTask stAB "carol" 5 "t1" ⟨"T", "D"⟩).1 ∧
    (updateMyTask stAB "carol" 5 "t1" ⟨"T", "D"⟩).2 = stAB ∧
    isUnauthorized (toggleMyTask stAB "carol" 5 "t1").1 ∧
    (toggleMyTask stAB "carol" 5 "t1").2 = stAB ∧
    isUnauthorized (deleteMyTask stAB "carol" "t1").1 ∧
    (deleteMyTask stAB "carol" "t1").2 = stAB :=
  unregistered_unauthorized_unchanged stAB "carol" 5 "t1" "t9"
    ⟨"C", "c@x.com"⟩ ⟨"T", "D"⟩ (by decide)

/-- C3: observable error precedence. For `updateMyTask` the checks run in
the order registration, title validation, task existence, ownership, and
only then does the update happen; `toggleMyTask` and `deleteMyTask` follow
the same registration-before-existence-before-ownership order. -/
theorem task_ops_error_precedence
    (st : CanisterState) (caller : Principal) (now : Nat) (id : String)
    (payload : TaskPayload) :
    (isUserExists st caller = false →
      isUnauthorized (updateMyTask st caller now id payload).1 ∧
      isUnauthorized (toggleMyTask st caller now id).1 ∧
      isUnauthorized (deleteMyTask st caller id).1) ∧
    (isUserExists st caller = true → payload.title = "" →
      isBadRequest (updateMyTask st caller now id payload).1) ∧
    (isUserExists st caller = true → isTaskExists st id = false →
      (payload.title ≠ "" → isNotFound (updateMyTask st caller now id payload).1) ∧
      isNotFound (toggleMyTask st caller now id).1 ∧
      isNotFound (deleteMyTask st caller id).1) ∧
    (∀ task, isUserExists st caller = true →
      mapGet st.taskStorage id = some task → task.owner ≠ caller →
      (payload.title ≠ "" → isForbidden (updateMyTask st caller now id payload).1) ∧
      isForbidden (toggleMyTask st caller now id).1 ∧
      isForbidden (deleteMyTask st caller id).1) ∧
    (∀ task, isUserExists st caller = true →
      mapGet st.taskStorage id = some task → task.owner = caller →
      payload.title ≠ "" →
      updateMyTask st caller now id payload =
        (Except.ok { task with title := payload.title, description := payload.description, updatedAt := now },
         { st with taskStorage := mapInsert st.taskStorage task.id { task with title := payload.title, description := payload.description, updatedAt := now } })) := by
  refine ⟨?_, ?_, ?_, ?_, ?_⟩
  · intro h
    refine ⟨?_, ?_, ?_⟩ <;>
      simp [updateMyTask, toggleMyTask, deleteMyTask, isUnauthorized, h]
  · intro hreg htitle
    simp [updateMyTask, isBadRequest, hreg, htitle]
  · intro hreg hex
    refine ⟨?_, ?_, ?_⟩ <;> intros <;>
      simp_all [updateMyTask, toggleMyTask, deleteMyTask, isNotFound, hreg, hex]
  · intro task hreg htask hown
    have hex : isTaskExists st id = true := by
      simp [isTaskExists, mapContains, htask]
    refine ⟨?_, ?_, ?_⟩ <;> intros <;>
      simp_all [updateMyTask, toggleMyTask, deleteMyTask, isForbidden,
        hreg, hex, htask, hown]
  · intro task hreg htask hown htitle
    have hex : isTaskExists st id = true := by
      simp [isTaskExists, mapContains, htask]
    simp [updateMyTask, hreg, hex, htask, hown, htitle]

/-- C4: once `createUser` has succeeded for an identity, any second
`createUser` call by the same identity returns `BadRequest`, leaves the
state unchanged, and the user store keeps exactly the one record stored by
the first call. -/
theorem createUser_duplicate_rejected
    (st0 st1 : CanisterState) (caller : Principal) (now : Nat)
    (p : UserPayload) (u : User)
    (h : createUser st0 caller now p = (Except.ok u, st1)) :
    (∀ p2 now2, isBadRequest (createUser st1 caller now2 p2).1 ∧
      (createUser st1 caller now2 p2).2 = st1) ∧
    st1.userStorage.filter (fun e => e.1 = caller) = [(caller, u)] ∧
    mapGet st1.userStorage caller = some u := by
  unfold createUser at h
  split_ifs at h with h1 h2 h3
  · simp at h
  · simp at h
  · simp at h
  · simp only [Prod.mk.injEq, Except.ok.injEq] at h
    obtain ⟨hu, hst⟩ := h
    have hget0 : mapGet st0.userStorage caller = none := by
      cases hg : mapGet st0.userStorage caller with
      | none => rfl
      | some v => exact absurd (by simp [isUserExists, mapContains, hg]) h3
    have hstore : st1.userStorage = st0.userStorage ++ [(caller, u)] := by
      rw [← hst, ← hu]
      exact mapInsert_of_get_none _ hget0
    have hget1 : mapGet st1.userStorage caller = some u := by
      rw [← hst, ← hu]
      exact mapGet_mapInsert_self _ _ _
    have hex1 : isUserExists st1 caller = true := by
      simp [isUserExists, mapContains, hget1]
    refine ⟨?_, ?_, hget1⟩
    · intro p2 now2
      unfold createUser
      split_ifs <;> exact ⟨⟨_, rfl⟩, rfl⟩
    · rw [hstore, List.filter_append]
      have hnil : st0.userStorage.filter (fun e => decide (e.1 = caller)) = [] := by
        rw [List.filter_eq_nil_iff]
        intro a ha
        simpa using (mapGet_eq_none_iff st0.userStorage caller).1 hget0 a ha
      simp [hnil]

/-- Witness for C4: "alice" registers twice. -/
theorem createUser_duplicate_rejected_witness :
    isBadRequest (createUser ⟨[("alice", userAlice)], []⟩ "alice" 2 ⟨"Alice2", "a2@x.com"⟩).1 ∧
    (createUser ⟨[("alice", userAlice)], []⟩ "alice" 2 ⟨"Alice2", "a2@x.com"⟩).2 =
      (⟨[("alice", userAlice)], []⟩ : CanisterState) ∧
    (⟨[("alice", userAlice)], []⟩ : CanisterState).userStorage.filter
      (fun e => e.1 = "alice") = [("alice", userAlice)] ∧
    mapGet (⟨[("alice", userAlice)], []⟩ : CanisterState).userStorage "alice" =
      some userAlice :=
  have h := createUser_duplicate_rejected emptyState ⟨[("alice", userAlice)], []⟩
    "alice" 1 ⟨"Alice", "alice@x.com"⟩ userAlice (by decide)
  ⟨(h.1 ⟨"Alice2", "a2@x.com"⟩ 2).1, (h.1 ⟨"Alice2", "a2@x.com"⟩ 2).2, h.2.1, h.2.2⟩

/-- C5: a successful `createTask` (with a fresh generated id) returns a
task with `isCompleted = false`, `owner = caller` and `createdAt =
updatedAt`, and a subsequent `getMyTasks` lists exactly the old
owner-scoped listing followed by that task and nothing else. -/
theorem createTask_result_listed
    (st st' : CanisterState) (caller : Principal) (now : Nat) (newId : String)
    (payload : TaskPayload) (t : Task)
    (hfresh : isTaskExists st newId = false)
    (h : createTask st caller now newId payload = (Except.ok t, st')) :
    t.isCompleted = false ∧ t.owner = caller ∧ t.createdAt = t.updatedAt ∧
    (getMyTasks st' caller).1 =
      Except.ok (((mapValues st.taskStorage).filter (fun x => x.owner = caller)) ++ [t]) := by
  unfold createTask at h
  split_ifs at h with h1 h2
  · simp at h
  · simp at h
  · simp only [Prod.mk.injEq, Except.ok.injEq] at h
    obtain ⟨ht, hst⟩ := h
    have hreg : isUserExists st caller = true := by
      simpa using h1
    have hget : mapGet st.taskStorage newId = none := by
      cases hg : mapGet st.taskStorage newId with
      | none => rfl
      | some v => simp [isTaskExists, mapContains, hg] at hfresh
    have hstore : st'.taskStorage = st.taskStorage ++ [(newId, t)] := by
      rw [← hst, ← ht]
      exact mapInsert_of_get_none _ hget
    have huser : st'.userStorage = st.userStorage := by
      rw [← hst]
    refine ⟨by rw [← ht], by rw [← ht], by rw [← ht], ?_⟩
    have hreg' : isUserExists st' caller = true := by
      rw [isUserExists, huser]
      exact hreg
    simp only [getMyTasks, hreg', Bool.not_true, Bool.false_eq_true, if_false]
    rw [hstore]
    simp [mapValues, List.filter_append, ← ht]

/-- A task created by "alice" in the witness run for C5. -/
def taskT2 : Task :=
  { id := "t2", title := "T", description := "D", isCompleted := false,
    owner := "alice", createdAt := 7, updatedAt := 7 }

/-- The state after the witness `createTask` run for C5. -/
def stAB2 : CanisterState :=
  { userStorage := stAB.userStorage,
    taskStorage := [("t1", taskMilk), ("t2", taskT2)] }

/-- Witness for C5: "alice" creates a second task and lists it. -/
theorem createTask_result_listed_witness :
    taskT2.isCompleted = false ∧ taskT2.owner = "alice" ∧
    taskT2.createdAt = taskT2.updatedAt ∧
    (getMyTasks stAB2 "alice").1 =
      Except.ok (((mapValues stAB.taskStorage).filter (fun x => x.owner = "alice")) ++ [taskT2]) :=
  createTask_result_listed stAB stAB2 "alice" 7 "t2" ⟨"T", "D"⟩ taskT2
    (by decide) (by decide)

/-- C6: after a successful `deleteMyTask` the task store no longer has an
entry at that id, the owner's listing no longer includes the task, and any
subsequent `updateMyTask`, `toggleMyTask` or `deleteMyTask` on that id
returns `NotFound`. -/
theorem deleteMyTask_removes
    (st st' : CanisterState) (caller : Principal) (id : String) (task : Task)
    (msg : String)
    (hwf : WellFormed st)
    (htask : mapGet st.taskStorage id = some task)
    (h : deleteMyTask st caller id = (Except.ok msg, st')) :
    mapGet st'.taskStorage id = none ∧
    (∀ l, (getMyTasks st' caller).1 = Except.ok l → task ∉ l) ∧
    (∀ now2 payload, payload.title ≠ "" →
      isNotFound (updateMyTask st' caller now2 id payload).1) ∧
    (∀ now2, isNotFound (toggleMyTask st' caller now2 id).1) ∧
    isNotFound (deleteMyTask st' caller id).1 := by
  have htid : task.id = id :=
    hwf.2.2.2 (id, task) (mapGet_some_mem htask)
  unfold deleteMyTask at h
  split_ifs at h with h1 h2
  · simp at h
  · simp at h
  · rw [htask] at h
    simp only [] at h
    split_ifs at h with h3
    · simp at h
    · simp only [Prod.mk.injEq, Except.ok.injEq] at h
      obtain ⟨-, hst⟩ := h
      have hreg : isUserExists st caller = true := by
        simpa using h1
      have hstore : st'.taskStorage = mapRemove st.taskStorage id := by
        rw [← hst, htid]
      have huser : st'.userStorage = st.userStorage := by
        rw [← hst]
      have hreg' : isUserExists st' caller = true := by
        rw [isUserExists, huser]
        exact hreg
      have hnone : mapGet st'.taskStorage id = none := by
        rw [hstore]
        exact mapGet_mapRemove_self hwf.2.1
      have hex' : isTaskExists st' id = false := by
        simp [isTaskExists, mapContains, hnone]
      refine ⟨hnone, ?_, ?_, ?_, ?_⟩
      · intro l hl hmem
        simp only [getMyTasks, hreg', Bool.not_true, Bool.false_eq_true, if_false, Except.ok.injEq] at hl
        rw [← hl] at hmem
        have hmem' := List.mem_of_mem_filter hmem
        simp only [mapValues, List.mem_map] at hmem'
        obtain ⟨p, hp, hpt⟩ := hmem'
        rw [hstore] at hp
        have hkey : p.1 ≠ id := mapRemove_key_ne hwf.2.1 hp
        have hpid : p.2.id = p.1 := hwf.2.2.2 p (mem_of_mem_mapRemove hp)
        rw [hpt] at hpid
        rw [htid] at hpid
        exact hkey hpid.symm
      · intro now2 payload htitle
        simp [updateMyTask, isNotFound, hreg', hex', htitle]
      · intro now2
        simp [toggleMyTask, isNotFound, hreg', hex']
      · simp [deleteMyTask, isNotFound, hreg', hex']

/-- State after "alice" deletes her task, for the C6 witness. -/
def stABdel : CanisterState :=
  { userStorage := stAB.userStorage, taskStorage := [] }

/-- Witness for C6: "alice" deletes "t1". -/
theorem deleteMyTask_removes_witness :
    mapGet stABdel.taskStorage "t1" = none ∧
    ((getMyTasks stABdel "alice").1 = Except.ok [] → taskMilk ∉ ([] : List Task)) ∧
    isNotFound (updateMyTask stABdel "alice" 9 "t1" ⟨"T", "D"⟩).1 ∧
    isNotFound (toggleMyTask stABdel "alice" 9 "t1").1 ∧
    isNotFound (deleteMyTask stABdel "alice" "t1").1 :=
  have h := deleteMyTask_removes stAB stABdel "alice" "t1" taskMilk
    "Task deleted successfully"
    (by unfold WellFormed; exact ⟨by decide, by decide, by decide, by decide⟩)
    (by decide) (by decide)
  ⟨h.1, h.2.1 [], h.2.2.1 9 ⟨"T", "D"⟩ (by decide), h.2.2.2.1 9, h.2.2.2.2⟩

/-- C7: toggling an initially-uncompleted task twice returns
`isCompleted = false` again and is stored that way, and with an advancing
time source `updatedAt` strictly increases on each of the two calls. -/
theorem toggleMyTask_twice_roundtrip
    (st : CanisterState) (caller : Principal) (id : String) (task : Task)
    (now1 now2 : Nat)
    (hwf : WellFormed st)
    (hreg : isUserExists st caller = true)
    (htask : mapGet st.taskStorage id = some task)
    (hown : task.owner = caller)
    (hc : task.isCompleted = false)
    (ht1 : task.updatedAt < now1) (ht2 : now1 < now2) :
    ∃ t1 st1 t2 st2,
      toggleMyTask st caller now1 id = (Except.ok t1, st1) ∧
      toggleMyTask st1 caller now2 id = (Except.ok t2, st2) ∧
      t1.isCompleted = true ∧ t2.isCompleted = false ∧
      mapGet st2.taskStorage id = some t2 ∧
      task.updatedAt < t1.updatedAt ∧ t1.updatedAt < t2.updatedAt := by
  have htid : task.id = id :=
    hwf.2.2.2 (id, task) (mapGet_some_mem htask)
  subst htid
  subst hown
  have hex : isTaskExists st task.id = true := by
    simp [isTaskExists, mapContains, htask]
  refine ⟨{ task with isCompleted := true, updatedAt := now1 },
    { st with taskStorage := mapInsert st.taskStorage task.id { task with isCompleted := true, updatedAt := now1 } },
    { task with isCompleted := false, updatedAt := now2 },
    { st with taskStorage := mapInsert (mapInsert st.taskStorage task.id { task with isCompleted := true, updatedAt := now1 }) task.id { task with isCompleted := false, updatedAt := now2 } },
    ?_, ?_, rfl, rfl, ?_, ht1, ht2⟩
  · simp [toggleMyTask, hreg, hex, htask, hc]
  · have hget1 : mapGet (mapInsert st.taskStorage task.id { task with isCompleted := true, updatedAt := now1 }) task.id =
        some { task with isCompleted := true, updatedAt := now1 } :=
      mapGet_mapInsert_self _ _ _
    have hreg1 : isUserExists { st with taskStorage := mapInsert st.taskStorage task.id { task with isCompleted := true, updatedAt := now1 } } task.owner = true := by
      simpa [isUserExists, mapContains] using hreg
    have hex1 : isTaskExists { st with taskStorage := mapInsert st.taskStorage task.id { task with isCompleted := true, updatedAt := now1 } } task.id = true := by
      simp [isTaskExists, mapContains, hget1]
    simp [toggleMyTask, hreg1, hex1, hget1]
  · exact mapGet_mapInsert_self _ _ _

/-- Witness for C7: "alice" toggles her task twice. -/
theorem toggleMyTask_twice_roundtrip_witness :
    ∃ t1 st1 t2 st2,
      toggleMyTask stAB "alice" 3 "t1" = (Except.ok t1, st1) ∧
      toggleMyTask st1 "alice" 4 "t1" = (Except.ok t2, st2) ∧
      t1.isCompleted = true ∧ t2.isCompleted = false ∧
      mapGet st2.taskStorage "t1" = some t2 ∧
      taskMilk.updatedAt < t1.updatedAt ∧ t1.updatedAt < t2.updatedAt :=
  toggleMyTask_twice_roundtrip stAB "alice" "t1" taskMilk 3 4
    (by unfold WellFormed; exact ⟨by decide, by decide, by decide, by decide⟩)
    (by decide) (by decide) (by decide) (by decide) (by decide) (by decide)

/-- C8: `createTask` performs an unconditional insert-or-replace keyed by
the generated id: every other entry of the task store is unchanged, the
generated id maps to the new task afterwards even if it was already
present (silent replacement), and key uniqueness of the task store is
preserved under the hypothesis that the generated id is fresh. -/
theorem createTask_unconditional_upsert
    (st st' : CanisterState) (caller : Principal) (now : Nat) (newId : String)
    (payload : TaskPayload) (t : Task)
    (h : createTask st caller now newId payload = (Except.ok t, st')) :
    t = { id := newId, title := payload.title, description := payload.description, isCompleted := false, owner := caller, createdAt := now, updatedAt := now } ∧
    (∀ k, k ≠ newId → mapGet st'.taskStorage k = mapGet st.taskStorage k) ∧
    mapGet st'.taskStorage newId = some t ∧
    ((st.taskStorage.map Prod.fst).Nodup → isTaskExists st newId = false →
      (st'.taskStorage.map Prod.fst).Nodup) := by
  unfold createTask at h
  split_ifs at h with h1 h2
  · simp at h
  · simp at h
  · simp only [Prod.mk.injEq, Except.ok.injEq] at h
    obtain ⟨ht, hst⟩ := h
    have hstore : st'.taskStorage = mapInsert st.taskStorage newId t := by
      rw [← hst, ← ht]
    refine ⟨ht.symm, ?_, ?_, ?_⟩
    · intro k hk
      rw [hstore]
      exact mapGet_mapInsert_ne _ _ _ hk
    · rw [hstore]
      exact mapGet_mapInsert_self _ _ _
    · intro hnd hfresh
      have hget : mapGet st.taskStorage newId = none := by
        cases hg : mapGet st.taskStorage newId with
        | none => rfl
        | some v => simp [isTaskExists, mapContains, hg] at hfresh
      rw [hstore, mapInsert_of_get_none _ hget, List.map_append, List.nodup_append]
      refine ⟨hnd, by simp, ?_⟩
      intro a ha hb
      simp only [List.map_cons, List.map_nil, List.mem_singleton] at hb
      subst hb
      obtain ⟨p, hp, hpk⟩ := List.mem_map.1 ha
      exact (mapGet_eq_none_iff _ _).1 hget p hp hpk

/-- The task "bob" creates with a colliding generated id, for the C8
witness. -/
def taskSteal : Task :=
  { id := "t1", title := "Steal", description := "X", isCompleted := false,
    owner := "bob", createdAt := 9, updatedAt := 9 }

/-- The state after the colliding `createTask`, for the C8 witness:
"alice"'s task under "t1" has been silently replaced by "bob"'s. -/
def stSteal : CanisterState :=
  { userStorage := stAB.userStorage, taskStorage := [("t1", taskSteal)] }

/-- Witness for C8: the generated id collides with "alice"'s stored task
and "bob"'s new task silently replaces it; unrelated keys are unchanged. -/
theorem createTask_unconditional_upsert_witness :
    taskSteal = { id := "t1", title := "Steal", description := "X", isCompleted := false, owner := "bob", createdAt := 9, updatedAt := 9 } ∧
    mapGet stSteal.taskStorage "zz" = mapGet stAB.taskStorage "zz" ∧
    mapGet stSteal.taskStorage "t1" = some taskSteal :=
  have h := createTask_unconditional_upsert stAB stSteal "bob" 9 "t1"
    ⟨"Steal", "X"⟩ taskSteal (by decide)
  ⟨h.1, h.2.1 "zz" (by decide), h.2.2.1⟩

/-- C9: the required-field checks test only JS falsiness (the empty
string), not blank content: a whitespace-only name or title passes them,
so `createUser`, `createTask` and `updateMyTask` return `Ok` rather than
the required-field `BadRequest` on whitespace-only input. -/
theorem whitespace_only_passes_required_checks
    (w : String) (hne : w ≠ "")
    (hws : ∀ c ∈ w.data, isJsWhitespace c = true) :
    (∀ st caller now email, isUserExists st caller = false →
      isEmailValid email = true →
      (createUser st caller now ⟨w, email⟩).1 =
        Except.ok { id := caller, name := w, email := email, createdAt := now, updatedAt := now }) ∧
    (∀ st caller now newId (d : String), isUserExists st caller = true →
      (createTask st caller now newId ⟨w, d⟩).1 =
        Except.ok { id := newId, title := w, description := d, isCompleted := false, owner := caller, createdAt := now, updatedAt := now }) ∧
    (∀ st caller now id (d : String) task, isUserExists st caller = true →
      mapGet st.taskStorage id = some task → task.owner = caller →
      (updateMyTask st caller now id ⟨w, d⟩).1 =
        Except.ok { task with title := w, description := d, updatedAt := now }) := by
  refine ⟨?_, ?_, ?_⟩
  · intro st caller now email hreg hmail
    have hemail : email ≠ "" := by
      intro he
      rw [he] at hmail
      exact absurd hmail (by decide)
    simp [createUser, hne, hemail, hmail, hreg]
  · intro st caller now newId d hreg
    simp [createTask, hne, hreg]
  · intro st caller now id d task hreg htask hown
    have hex : isTaskExists st id = true := by
      simp [isTaskExists, mapContains, htask]
    simp [updateMyTask, hne, hreg, hex, htask, hown]

/-- Witness for C9: the single-space name and title `" "` are accepted. -/
theorem whitespace_only_passes_required_checks_witness :
    (createUser emptyState "dave" 3 ⟨" ", "d@x.com"⟩).1 =
      Except.ok { id := "dave", name := " ", email := "d@x.com", createdAt := 3, updatedAt := 3 } ∧
    (createTask stAB "alice" 3 "t7" ⟨" ", "D"⟩).1 =
      Except.ok { id := "t7", title := " ", description := "D", isCompleted := false, owner := "alice", createdAt := 3, updatedAt := 3 } ∧
    (updateMyTask stAB "alice" 3 "t1" ⟨" ", "D"⟩).1 =
      Except.ok { taskMilk with title := " ", description := "D", updatedAt := 3 } :=
  have h := whitespace_only_passes_required_checks " " (by decide) (by decide)
  ⟨h.1 emptyState "dave" 3 "d@x.com" (by decide) (by decide),
   h.2.1 stAB "alice" 3 "t7" "D" (by decide),
   h.2.2 stAB "alice" 3 "t1" "D" taskMilk (by decide) (by decide) (by decide)⟩

/-- C10: email validation is an unanchored substring search --
`isEmailValid` accepts exactly the strings containing a `\S+@\S+\.\S+`
fragment anywhere, so a string like `"hello a@b.c world"` that merely
contains such a fragment is accepted by `createUser` and `updateMe` even
though the whole string is not of that shape. -/
theorem email_check_unanchored :
    (∀ email : String, isEmailValid email = true ↔ EmailFragmentSpec email) ∧
    (createUser emptyState "erin" 4 ⟨"Erin", "hello a@b.c world"⟩).1 =
      Except.ok { id := "erin", name := "Erin", email := "hello a@b.c world", createdAt := 4, updatedAt := 4 } ∧
    (updateMe stAB "alice" 4 ⟨"Alice", "hello a@b.c world"⟩).1 =
      Except.ok { userAlice with email := "hello a@b.c world", updatedAt := 4 } :=
  ⟨isEmailValid_iff, by decide, by decide⟩

end TaskCanister
